import Mathlib

/-!
Verification development for the NMT 2026 exam-preparation application.

The definitions below are a shallow embedding of the TypeScript source:
  * `types.ts`                        — `Question`, `QuizSession`
  * `services/geminiService.ts`       — `fetchQuestionsInternal`,
    `generateNMTQuestions`, `generateNMTSimulation`,
    `generateSubjectSimulation`, `generateTopicQuiz`, `generateStudyNotes`
  * `components/QuizRunner.tsx`       — answer selection, navigation, timer
  * `components/ResultsView.tsx`      — score computation
  * `components/StudyView.tsx`        — `handleTopicSelect`

External effects (the Gemini network call, `setInterval` ticks) are made
explicit parameters: a generation call is modelled by the payload the
service delivers for it, and the timer by a sequence of tick events.
-/

namespace NMT

/-! ### Subjects (types.ts `enum Subject`) -/

namespace Subject

def MATH : String := "Математика"

def UKRAINIAN : String := "Українська мова"

def HISTORY : String := "Історія України"

def ENGLISH : String := "Англійська мова"

def PHYSICS : String := "Фізика"

def BIOLOGY : String := "Біологія"

def CHEMISTRY : String := "Хімія"

end Subject

/-! ### Question (types.ts `interface Question`)

In the source every field except `subject` is declared required, but the
service payload is installed by `JSON.parse(response.text) as Question[]`,
a compile-time cast with no runtime check: at runtime any field may be
absent (`undefined`).  The embedding therefore gives every field an
`Option`, `none` standing for `undefined`. -/

structure Question where
  id : Option Int
  text : Option String
  options : Option (List String)
  correctIndex : Option Int
  explanation : Option String
  subject : Option String
deriving DecidableEq, Repr

/-- The outcome of one `ai.models.generateContent` call for questions, as
observed by `fetchQuestionsInternal`:
  * `svcFail`   — the awaited call itself rejects (network/service error);
  * `noText`    — the call resolves but `response.text` is empty/undefined;
  * `malformed` — `response.text` is not well-formed JSON (`JSON.parse` throws);
  * `nonArray`  — well-formed JSON that is not an array
                  (`rawQuestions.map` then throws a TypeError);
  * `arr items` — a JSON array; each element is an object whose present
                  fields are recorded in a `Question` (absent = `none`). -/
inductive GenPayload where
  | svcFail : GenPayload
  | noText : GenPayload
  | malformed : GenPayload
  | nonArray : GenPayload
  | arr : List Question → GenPayload
deriving DecidableEq, Repr

/-- The error thrown out of `fetchQuestionsInternal`, by cause. -/
inductive GenError where
  | serviceError : GenError
  | noData : GenError
  | parseError : GenError
  | typeError : GenError
deriving DecidableEq, Repr

/-- `rawQuestions.map(q => ({ ...q, subject }))` — the tagging step of
`fetchQuestionsInternal`: every element keeps its fields, `subject` is set. -/
def tagSubject (subject : String) (qs : List Question) : List Question :=
  qs.map fun q => { q with subject := some subject }

/-- `fetchQuestionsInternal(subject, count, topic?)` from
services/geminiService.ts.  `count` and `topic` only shape the prompt, not
the result handling, so the embedding takes the service payload directly.
On an array payload the code parses, tags each element with `subject` and
returns; in every other case an error propagates out of the function
(the `catch` logs and rethrows). -/
def fetchQuestionsInternal (subject : String) (resp : GenPayload) :
    Except GenError (List Question) :=
  match resp with
  | .svcFail => .error .serviceError
  | .noText => .error .noData
  | .malformed => .error .parseError
  | .nonArray => .error .typeError
  | .arr items => .ok (tagSubject subject items)

/-- `Promise.all` on a list of settled sub-requests: resolves with the list
of values, in request order, when all succeed; rejects when any rejects. -/
def promiseAll {α : Type} (ps : List (Except GenError α)) :
    Except GenError (List α) :=
  match ps with
  | [] => .ok []
  | p :: rest =>
    match p with
    | .error e => .error e
    | .ok x =>
      match promiseAll rest with
      | .error e => .error e
      | .ok xs => .ok (x :: xs)

/-- `allQuestions.map((q, index) => ({ ...q, id: index + 1 }))` — the
re-indexing step shared by the batched generators. -/
def reindex (qs : List Question) : List Question :=
  qs.mapIdx fun i q => { q with id := some ((i : Int) + 1) }

/-- `generateNMTQuestions(subject)`: one request for 5 questions. -/
def generateNMTQuestions (subject : String) (resp : GenPayload) :
    Except GenError (List Question) :=
  fetchQuestionsInternal subject resp

/-- The fixed core-subject request list of `generateNMTSimulation`. -/
def subjectsToFetch : List (String × Nat) :=
  [(Subject.UKRAINIAN, 8), (Subject.HISTORY, 8),
   (Subject.ENGLISH, 8), (Subject.MATH, 8)]

/-- `generateNMTSimulation()`: four parallel `fetchQuestionsInternal`
calls (one per core subject), joined by `Promise.all`, flattened in
request order, then re-indexed `1..N`.  `svc` gives the payload the
service delivers for each subject's request. -/
def generateNMTSimulation (svc : String → GenPayload) :
    Except GenError (List Question) :=
  match promiseAll (subjectsToFetch.map fun it =>
      fetchQuestionsInternal it.1 (svc it.1)) with
  | .error e => .error e
  | .ok results => .ok (reindex results.flatten)

/-- `generateSubjectSimulation(subject, topic?)`: 4 parallel batches of 8
for one subject, joined, flattened, re-indexed, and `subject` overwritten
once more on each question.  `batches i` is the payload delivered for the
`i`-th batch request. -/
def generateSubjectSimulation (subject : String) (batches : Nat → GenPayload) :
    Except GenError (List Question) :=
  match promiseAll ((List.range 4).map fun i =>
      fetchQuestionsInternal subject (batches i)) with
  | .error e => .error e
  | .ok results =>
    .ok ((results.flatten).mapIdx fun i q =>
      { q with id := some ((i : Int) + 1), subject := some subject })

/-- `generateTopicQuiz(subject, topic)`: a single request for 10
questions, re-indexed `1..N`. -/
def generateTopicQuiz (subject : String) (resp : GenPayload) :
    Except GenError (List Question) :=
  match fetchQuestionsInternal subject resp with
  | .error e => .error e
  | .ok questions => .ok (reindex questions)

/-! ### Study notes (geminiService.ts `generateStudyNotes`,
StudyView.tsx `handleTopicSelect`) -/

/-- The outcome of the `generateContent` call inside `generateStudyNotes`:
the call rejects, or resolves with `response.text` (possibly undefined,
modelled `none`, or empty). -/
inductive NotesPayload where
  | svcFail : NotesPayload
  | text : Option String → NotesPayload
deriving DecidableEq, Repr

/-- The fallback returned by `generateStudyNotes` itself when
`response.text` is falsy (`response.text || "..."`). -/
def notesFallback : String := "Не вдалося згенерувати конспект. Спробуйте ще раз."

/-- `generateStudyNotes(subject, topic)`: returns `response.text` when it
is a non-empty string, the fallback when it is empty/undefined, and
rethrows when the service call fails (the `catch` logs and rethrows). -/
def generateStudyNotes (resp : NotesPayload) : Except GenError String :=
  match resp with
  | .svcFail => .error .serviceError
  | .text none => .ok notesFallback
  | .text (some s) => .ok (if s = "" then notesFallback else s)

/-- The notes text installed by StudyView's `catch` branch. -/
def studyViewErrorNotes : String :=
  "Вибачте, сталася помилка при генерації конспекту. Спробуйте пізніше."

/-- `StudyView.handleTopicSelect`: awaits `generateStudyNotes` and stores
its content; a thrown error is caught and the view's own fallback text is
stored instead.  The returned string is the `notes` state after the call. -/
def handleTopicSelect (resp : NotesPayload) : String :=
  match generateStudyNotes resp with
  | .ok content => content
  | .error _ => studyViewErrorNotes

/-! ### Session and scorer (types.ts `QuizSession`,
ResultsView.tsx score computation) -/

structure QuizSession where
  subject : String
  questions : List Question
  userAnswers : List Int
  startTime : Int
  endTime : Option Int
  timeLimit : Int
deriving DecidableEq, Repr

/-- `session.userAnswers[idx]` as read by the scorer: a number when the
index is in range, `undefined` (`none`) otherwise. -/
def answerAt (s : QuizSession) (idx : Nat) : Option Int :=
  s.userAnswers.get? idx

/-- `session.userAnswers[idx] === q.correctIndex`.  JavaScript strict
equality on two values that are numbers or `undefined` coincides with
`Option Int` equality (`undefined === undefined` is `true`). -/
def isAnswerCorrect (s : QuizSession) (idx : Nat) (q : Question) : Bool :=
  answerAt s idx == q.correctIndex

/-- The `correct` accumulator of ResultsView's `forEach` over
`session.questions`. -/
def correctCount (s : QuizSession) : Nat :=
  (s.questions.enum.filter fun p => isAnswerCorrect s p.1 p.2).length

/-- `incorrectCount = session.questions.length - correct`. -/
def incorrectCount (s : QuizSession) : Int :=
  (s.questions.length : Int) - (correctCount s : Int)

/-- JavaScript division on numbers, modelled over exact rationals; a zero
denominator yields no number (`0/0` is `NaN`; in the scorer the numerator
is forced to `0` whenever the denominator is, see `score_zero_questions`). -/
def jsDiv (a b : ℚ) : Option ℚ :=
  if b = 0 then none else some (a / b)

/-- `Math.round`: rounds to the nearest integer, halves toward `+∞`
(`Math.round(x)` is the floor of `x + 1/2`); see `jsRound_eq_floor`. -/
def jsRound (q : ℚ) : ℤ :=
  (q + 1 / 2).floor

/-- `score = Math.round((correct / session.questions.length) * 200)`,
with `NaN` (no number) propagating through the multiplication and rounding. -/
def score (s : QuizSession) : Option ℤ :=
  (jsDiv (correctCount s : ℚ) (s.questions.length : ℚ)).map fun d => jsRound (d * 200)

/-! ### Quiz runner (QuizRunner.tsx) -/

/-- The component state of `QuizRunner` touched by answer selection and
navigation: `currentQuestionIndex` and `answers` (initialised to
`new Array(session.questions.length).fill(-1)`). -/
structure RunnerState where
  currentQuestionIndex : Nat
  answers : List Int
deriving DecidableEq, Repr

/-- `session.subject.includes("Симуляція")`. -/
def isSimulationSession (s : QuizSession) : Bool :=
  decide (List.IsInfix ("Симуляція".toList) s.subject.toList)

def initRunner (s : QuizSession) : RunnerState :=
  { currentQuestionIndex := 0, answers := List.replicate s.questions.length (-1) }

/-- `handleSelectOption(optionIndex)`: in practice mode (not a simulation)
a question whose recorded answer differs from the `-1` sentinel is locked
and the call returns early; otherwise the answer at the current index is
replaced by `optionIndex`. -/
def handleSelectOption (isSimulation : Bool) (st : RunnerState) (optionIndex : Int) :
    RunnerState :=
  if !isSimulation && !(st.answers.get? st.currentQuestionIndex == some (-1)) then st
  else { st with answers := st.answers.set st.currentQuestionIndex optionIndex }

/-- `isAnswered = answers[currentQuestionIndex] !== -1`. -/
def runnerIsAnswered (st : RunnerState) : Bool :=
  !(st.answers.get? st.currentQuestionIndex == some (-1))

/-- The render condition of the correct-answer highlight and explanation
block: `!isSimulation && isAnswered`. -/
def showsFeedback (isSimulation : Bool) (st : RunnerState) : Bool :=
  !isSimulation && runnerIsAnswered st

/-- `handleNext`: advances while `currentQuestionIndex <
session.questions.length - 1` (JavaScript arithmetic, so the bound is an
integer that may be `-1`). -/
def handleNext (questionCount : Nat) (st : RunnerState) : RunnerState :=
  if (st.currentQuestionIndex : Int) < (questionCount : Int) - 1 then
    { st with currentQuestionIndex := st.currentQuestionIndex + 1 }
  else st

/-- `handlePrev`: steps back while `currentQuestionIndex > 0`. -/
def handlePrev (st : RunnerState) : RunnerState :=
  if 0 < st.currentQuestionIndex then
    { st with currentQuestionIndex := st.currentQuestionIndex - 1 }
  else st

inductive NavStep where
  | next : NavStep
  | prev : NavStep
deriving DecidableEq, Repr

def applyNav (questionCount : Nat) (st : RunnerState) : NavStep → RunnerState
  | .next => handleNext questionCount st
  | .prev => handlePrev st

/-- A user's sequence of next/previous clicks, applied in order. -/
def applyNavs (questionCount : Nat) (steps : List NavStep) (st : RunnerState) :
    RunnerState :=
  steps.foldl (applyNav questionCount) st

/-! ### Countdown timer (QuizRunner.tsx timer `useEffect`)

The `setInterval` callback runs `setTimeLeft(prev => ...)`: when
`prev <= 1` it clears the interval, calls `handleFinish()` (one
`onComplete` invocation) and returns `0`; otherwise it returns `prev - 1`.
A cleared interval delivers no further callbacks, which the model renders
as `intervalActive = false` making `tick` the identity.  `completions`
counts the `handleFinish` invocations made by the timer. -/

structure TimerState where
  timeLeft : Int
  intervalActive : Bool
  completions : Nat
deriving DecidableEq, Repr

def initTimer (timeLimit : Int) : TimerState :=
  { timeLeft := timeLimit, intervalActive := true, completions := 0 }

def tick (st : TimerState) : TimerState :=
  if st.intervalActive then
    if st.timeLeft ≤ 1 then
      { timeLeft := 0, intervalActive := false, completions := st.completions + 1 }
    else { st with timeLeft := st.timeLeft - 1 }
  else st

/-- The timer state after `n` one-second ticks. -/
def ticks (n : Nat) (st : TimerState) : TimerState :=
  tick^[n] st

/-! ### Helper notions and lemmas -/

/-- Whether an `Except` settled successfully. -/
def exceptIsOk {ε α : Type} : Except ε α → Bool
  | .ok _ => true
  | .error _ => false

/-- The invariant of spec §3: the correct-option index is within the
bounds of the options sequence.  For a runtime question this requires both
fields to be present. -/
def correctIndexInBounds (q : Question) : Bool :=
  match q.correctIndex, q.options with
  | some ci, some opts => decide (0 ≤ ci) && decide (ci < (opts.length : Int))
  | _, _ => false

/-- Presence and non-negativity of the correct index alone. -/
def correctIndexNonneg (q : Question) : Bool :=
  match q.correctIndex with
  | some ci => decide (0 ≤ ci)
  | none => false

/-- A payload keeps the bounds invariant when every question of an array
payload does (non-array payloads never produce questions). -/
def payloadInBounds (p : GenPayload) : Bool :=
  match p with
  | .arr items => items.all correctIndexInBounds
  | _ => true

theorem exceptIsOk_false_iff {ε α : Type} (r : Except ε α) :
    exceptIsOk r = false ↔ ∃ e, r = .error e := by
  cases r <;> simp [exceptIsOk]

theorem promiseAll_eq_ok {α : Type} (ps : List (Except GenError α)) (xs : List α) :
    promiseAll ps = .ok xs ↔ ps = xs.map Except.ok := by
  induction ps generalizing xs with
  | nil => cases xs <;> simp [promiseAll]
  | cons p rest ih =>
    cases p with
    | error e => cases xs <;> simp [promiseAll]
    | ok x =>
      cases xs with
      | nil =>
        cases h : promiseAll rest <;> simp [promiseAll, h]
      | cons y ys =>
        cases h : promiseAll rest with
        | error e =>
          have hl : promiseAll (Except.ok x :: rest) = Except.error e := by
            simp [promiseAll, h]
          rw [hl]
          simp only [List.map_cons, List.cons.injEq, Except.ok.injEq]
          constructor
          · intro hc; exact absurd hc (by simp)
          · rintro ⟨rfl, hr⟩
            have hok := (ih ys).mpr hr
            rw [h] at hok
            exact absurd hok (by simp)
        | ok zs =>
          have hl : promiseAll (Except.ok x :: rest) = Except.ok (x :: zs) := by
            simp [promiseAll, h]
          rw [hl]
          simp only [Except.ok.injEq, List.cons.injEq, List.map_cons]
          constructor
          · rintro ⟨hxy, rfl⟩
            exact ⟨hxy, (ih zs).mp h⟩
          · rintro ⟨hxy, hr⟩
            have hok := (ih ys).mpr hr
            rw [h] at hok
            simp only [Except.ok.injEq] at hok
            exact ⟨hxy, hok⟩


theorem promiseAll_error_of_mem {α : Type} (ps : List (Except GenError α))
    (e : GenError) (h : Except.error e ∈ ps) :
    ∃ e2, promiseAll ps = .error e2 := by
  cases hr : promiseAll ps with
  | error e2 => exact ⟨e2, rfl⟩
  | ok xs =>
    rw [promiseAll_eq_ok] at hr
    subst hr
    rcases List.mem_map.mp h with ⟨x, _, hx⟩
    exact absurd hx (by simp)

theorem tagSubject_length (subject : String) (qs : List Question) :
    (tagSubject subject qs).length = qs.length := by
  simp [tagSubject]

theorem reindex_length (qs : List Question) :
    (reindex qs).length = qs.length := by
  simp [reindex]

theorem reindex_map_id (qs : List Question) :
    (reindex qs).map Question.id =
      (List.range qs.length).map (fun i : Nat => some ((i : Int) + 1)) := by
  apply List.ext_getElem
  · simp [reindex]
  · intro i h1 h2
    simp [reindex, List.getElem_mapIdx]

theorem exists_of_mem_mapIdx {α β : Type} {l : List α} {f : Nat → α → β} {b : β}
    (h : b ∈ l.mapIdx f) : ∃ i a, a ∈ l ∧ b = f i a := by
  rw [List.mapIdx_eq_enum_map] at h
  rcases List.mem_map.mp h with ⟨p, hmem, hb⟩
  have hget : l.get? p.1 = some p.2 := by
    simpa [List.get?_eq_getElem?] using List.mem_enum_iff_getElem?.mp hmem
  exact ⟨p.1, p.2, List.get?_mem hget, hb.symm⟩

theorem correctIndexInBounds_set_id_subject (q : Question) (i : Option Int)
    (s : Option String) :
    correctIndexInBounds { q with id := i, subject := s } = correctIndexInBounds q := rfl

theorem correctIndexInBounds_set_id (q : Question) (i : Option Int) :
    correctIndexInBounds { q with id := i } = correctIndexInBounds q := rfl

theorem correctIndexInBounds_set_subject (q : Question) (s : Option String) :
    correctIndexInBounds { q with subject := s } = correctIndexInBounds q := rfl

theorem mem_tagSubject_inBounds {subject : String} {qs : List Question} {q : Question}
    (hall : qs.all correctIndexInBounds = true) (h : q ∈ tagSubject subject qs) :
    correctIndexInBounds q = true := by
  rcases List.mem_map.mp h with ⟨q0, hq0, rfl⟩
  rw [correctIndexInBounds_set_subject]
  exact List.all_eq_true.mp hall q0 hq0

theorem mem_reindex_inBounds {qs : List Question} {q : Question}
    (hall : ∀ q0 ∈ qs, correctIndexInBounds q0 = true) (h : q ∈ reindex qs) :
    correctIndexInBounds q = true := by
  rcases exists_of_mem_mapIdx h with ⟨i, q0, hq0, rfl⟩
  rw [correctIndexInBounds_set_id]
  exact hall q0 hq0

theorem jsRound_eq_floor (q : ℚ) : jsRound q = ⌊q + 1 / 2⌋ := by
  rw [jsRound, Rat.floor_def, Rat.floor_def']

theorem score_some_of_ne_zero (s : QuizSession) (h : s.questions.length ≠ 0) :
    score s =
      some (jsRound ((correctCount s : ℚ) / (s.questions.length : ℚ) * 200)) := by
  have hq : ((s.questions.length : ℚ)) ≠ 0 := Nat.cast_ne_zero.mpr h
  simp [score, jsDiv, hq]

theorem score_eq_intDiv (s : QuizSession) (h : s.questions.length ≠ 0) :
    score s =
      some ((400 * (correctCount s : ℤ) + (s.questions.length : ℤ)) /
        ((2 * s.questions.length : ℕ) : ℤ)) := by
  rw [score_some_of_ne_zero s h, jsRound_eq_floor]
  have hq : ((s.questions.length : ℚ)) ≠ 0 := Nat.cast_ne_zero.mpr h
  have harith : (correctCount s : ℚ) / (s.questions.length : ℚ) * 200 + 1 / 2 =
      (((400 * (correctCount s : ℤ) + (s.questions.length : ℤ)) : ℤ) : ℚ) /
        (((2 * s.questions.length : ℕ) : ℕ) : ℚ) := by
    push_cast
    field_simp
    ring
  rw [harith, Rat.floor_intCast_div_natCast]

theorem tick_inactive {st : TimerState} (h : st.intervalActive = false) :
    tick st = st := by
  simp [tick, h]

theorem ticks_succ (n : Nat) (st : TimerState) :
    ticks (n + 1) st = tick (ticks n st) := by
  simp [ticks, Function.iterate_succ_apply']

theorem ticks_initTimer_eq (T : Int) (hT : 1 ≤ T) (n : Nat) :
    ticks n (initTimer T) =
      if (n : Int) < T then
        { timeLeft := T - n, intervalActive := true, completions := 0 }
      else { timeLeft := 0, intervalActive := false, completions := 1 } := by
  induction n with
  | zero =>
    rw [if_pos (by omega : ((0 : Nat) : Int) < T)]
    simp [ticks, initTimer]
  | succ n ih =>
    rw [ticks_succ, ih]
    by_cases h : (n : Int) < T
    · rw [if_pos h]
      by_cases h2 : ((n + 1 : Nat) : Int) < T
      · rw [if_pos h2]
        have hgt : ¬ (T - (n : Int) ≤ 1) := by push_cast at h2 ⊢; omega
        simp only [tick, if_true, hgt, if_false]
        simp only [TimerState.mk.injEq]
        refine ⟨by push_cast; omega, trivial, trivial⟩
      · rw [if_neg h2]
        have hle : T - (n : Int) ≤ 1 := by push_cast at h2 ⊢; omega
        simp [tick, hle]
    · rw [if_neg h]
      rw [if_neg (by push_cast at h ⊢; omega : ¬ ((n + 1 : Nat) : Int) < T)]
      exact tick_inactive rfl

/-! ### Claim theorems -/

/-- C1: `generateNMTSimulation()` returns exactly the sum of the
per-subject sub-counts (4 subjects × 8 questions = 32) whenever the
service fulfils each sub-request with its requested count; the merged
result is the concatenation of the per-subject results in the order the
requests were issued (Ukrainian, History, English, Math), and after
re-indexing the identifiers form the contiguous sequence 1..N with no
gaps or duplicates. -/
theorem generateNMTSimulation_count_order_ids
    (svc : String → GenPayload) (qU qH qE qM : List Question)
    (hU : svc Subject.UKRAINIAN = .arr qU) (hH : svc Subject.HISTORY = .arr qH)
    (hE : svc Subject.ENGLISH = .arr qE) (hM : svc Subject.MATH = .arr qM)
    (hlU : qU.length = 8) (hlH : qH.length = 8)
    (hlE : qE.length = 8) (hlM : qM.length = 8) :
    generateNMTSimulation svc =
      .ok (reindex (tagSubject Subject.UKRAINIAN qU ++ tagSubject Subject.HISTORY qH ++
        tagSubject Subject.ENGLISH qE ++ tagSubject Subject.MATH qM)) ∧
    ∀ out, generateNMTSimulation svc = .ok out →
      out.length = 32 ∧
      out.map Question.id = (List.range 32).map (fun i : Nat => some ((i : Int) + 1)) := by
  have hps : subjectsToFetch.map
      (fun it => fetchQuestionsInternal it.1 (svc it.1)) =
      [Except.ok (tagSubject Subject.UKRAINIAN qU),
       Except.ok (tagSubject Subject.HISTORY qH),
       Except.ok (tagSubject Subject.ENGLISH qE),
       Except.ok (tagSubject Subject.MATH qM)] := by
    simp [subjectsToFetch, hU, hH, hE, hM, fetchQuestionsInternal]
  have hlen : (tagSubject Subject.UKRAINIAN qU ++ tagSubject Subject.HISTORY qH ++
      tagSubject Subject.ENGLISH qE ++ tagSubject Subject.MATH qM).length = 32 := by
    simp [tagSubject_length, hlU, hlH, hlE, hlM]
  have hmain : generateNMTSimulation svc =
      .ok (reindex (tagSubject Subject.UKRAINIAN qU ++ tagSubject Subject.HISTORY qH ++
        tagSubject Subject.ENGLISH qE ++ tagSubject Subject.MATH qM)) := by
    rw [generateNMTSimulation, hps]
    simp [promiseAll, List.append_assoc]
  refine ⟨hmain, ?_⟩
  intro out hout
  rw [hmain] at hout
  have hout2 := (Except.ok.injEq _ _).mp hout.symm
  subst hout2
  constructor
  · rw [reindex_length, hlen]
  · rw [reindex_map_id, hlen]

/-- C1 witness: a service that answers every sub-request with 8 questions
produces a 32-question merge, ids 1..32, in issue order. -/
theorem generateNMTSimulation_count_order_ids_witness :
    generateNMTSimulation (fun _ =>
        .arr (List.replicate 8
          { id := some 1, text := some "t", options := some ["А", "Б", "В", "Г"],
            correctIndex := some 2, explanation := some "e", subject := none })) =
      .ok (reindex (tagSubject Subject.UKRAINIAN (List.replicate 8
          { id := some 1, text := some "t", options := some ["А", "Б", "В", "Г"],
            correctIndex := some 2, explanation := some "e", subject := none }) ++
        tagSubject Subject.HISTORY (List.replicate 8
          { id := some 1, text := some "t", options := some ["А", "Б", "В", "Г"],
            correctIndex := some 2, explanation := some "e", subject := none }) ++
        tagSubject Subject.ENGLISH (List.replicate 8
          { id := some 1, text := some "t", options := some ["А", "Б", "В", "Г"],
            correctIndex := some 2, explanation := some "e", subject := none }) ++
        tagSubject Subject.MATH (List.replicate 8
          { id := some 1, text := some "t", options := some ["А", "Б", "В", "Г"],
            correctIndex := some 2, explanation := some "e", subject := none }))) ∧
    (reindex (tagSubject Subject.UKRAINIAN (List.replicate 8
          { id := some 1, text := some "t", options := some ["А", "Б", "В", "Г"],
            correctIndex := some 2, explanation := some "e", subject := none }) ++
        tagSubject Subject.HISTORY (List.replicate 8
          { id := some 1, text := some "t", options := some ["А", "Б", "В", "Г"],
            correctIndex := some 2, explanation := some "e", subject := none }) ++
        tagSubject Subject.ENGLISH (List.replicate 8
          { id := some 1, text := some "t", options := some ["А", "Б", "В", "Г"],
            correctIndex := some 2, explanation := some "e", subject := none }) ++
        tagSubject Subject.MATH (List.replicate 8
          { id := some 1, text := some "t", options := some ["А", "Б", "В", "Г"],
            correctIndex := some 2, explanation := some "e", subject := none }))).length = 32 := by
  have h := generateNMTSimulation_count_order_ids
    (fun _ =>
        .arr (List.replicate 8
          { id := some 1, text := some "t", options := some ["А", "Б", "В", "Г"],
            correctIndex := some 2, explanation := some "e", subject := none }))
    _ _ _ _ rfl rfl rfl rfl (by decide) (by decide) (by decide) (by decide)
  exact ⟨h.1, (h.2 _ h.1).1⟩

/-- C2: if any one of the parallel sub-requests of a batched generation
fails then the whole operation settles as an error and no (partial)
question list is produced, for both `generateNMTSimulation` and
`generateSubjectSimulation`. -/
theorem batched_generation_all_or_nothing
    (svc : String → GenPayload) (batches : Nat → GenPayload) (subject : String)
    (h1 : ∃ p ∈ subjectsToFetch,
      exceptIsOk (fetchQuestionsInternal p.1 (svc p.1)) = false)
    (h2 : ∃ i ∈ List.range 4,
      exceptIsOk (fetchQuestionsInternal subject (batches i)) = false) :
    ((∃ e, generateNMTSimulation svc = .error e) ∧
      ∀ qs, generateNMTSimulation svc ≠ .ok qs) ∧
    ((∃ e, generateSubjectSimulation subject batches = .error e) ∧
      ∀ qs, generateSubjectSimulation subject batches ≠ .ok qs) := by
  constructor
  · rcases h1 with ⟨p, hp, hfail⟩
    rcases (exceptIsOk_false_iff _).mp hfail with ⟨e, he⟩
    have hmem : Except.error e ∈ subjectsToFetch.map
        (fun it => fetchQuestionsInternal it.1 (svc it.1)) := by
      rw [← he]
      exact List.mem_map_of_mem _ hp
    rcases promiseAll_error_of_mem _ e hmem with ⟨e2, he2⟩
    have hres : generateNMTSimulation svc = .error e2 := by
      rw [generateNMTSimulation, he2]
    exact ⟨⟨e2, hres⟩, fun qs h => by rw [hres] at h; exact absurd h (by simp)⟩
  · rcases h2 with ⟨i, hi, hfail⟩
    rcases (exceptIsOk_false_iff _).mp hfail with ⟨e, he⟩
    have hmem : Except.error e ∈ (List.range 4).map
        (fun i => fetchQuestionsInternal subject (batches i)) := by
      rw [← he]
      exact List.mem_map_of_mem _ hi
    rcases promiseAll_error_of_mem _ e hmem with ⟨e2, he2⟩
    have hres : generateSubjectSimulation subject batches = .error e2 := by
      rw [generateSubjectSimulation, he2]
    exact ⟨⟨e2, hres⟩, fun qs h => by rw [hres] at h; exact absurd h (by simp)⟩

/-- C2 witness: with every sub-request rejecting, both batched generators
reject and neither returns a (partial) list. -/
theorem batched_generation_all_or_nothing_witness :
    (∃ e, generateNMTSimulation (fun _ => .svcFail) = .error e) ∧
    generateNMTSimulation (fun _ => .svcFail) ≠ .ok [] ∧
    (∃ e, generateSubjectSimulation Subject.MATH (fun _ => .svcFail) = .error e) ∧
    generateSubjectSimulation Subject.MATH (fun _ => .svcFail) ≠ .ok [] := by
  have h := batched_generation_all_or_nothing (fun _ => .svcFail)
    (fun _ => .svcFail) Subject.MATH
    ⟨(Subject.UKRAINIAN, 8), by decide, by decide⟩
    ⟨0, by decide, by decide⟩
  exact ⟨h.1.1, h.1.2 [], h.2.1, h.2.2 []⟩

theorem fetch_ok_inBounds {subject : String} {p : GenPayload} {qs : List Question}
    (hp : payloadInBounds p = true) (h : fetchQuestionsInternal subject p = .ok qs) :
    ∀ q ∈ qs, correctIndexInBounds q = true := by
  cases p with
  | svcFail => exact absurd h (by simp [fetchQuestionsInternal])
  | noText => exact absurd h (by simp [fetchQuestionsInternal])
  | malformed => exact absurd h (by simp [fetchQuestionsInternal])
  | nonArray => exact absurd h (by simp [fetchQuestionsInternal])
  | arr items =>
    have hqs : qs = tagSubject subject items := by
      simpa [fetchQuestionsInternal] using h.symm
    subst hqs
    intro q hq
    exact mem_tagSubject_inBounds (by simpa [payloadInBounds] using hp) hq

theorem promiseAll_ok_results {α : Type} {ps : List (Except GenError α)}
    {xs : List α} (h : promiseAll ps = .ok xs) :
    ∀ x ∈ xs, Except.ok x ∈ ps := by
  rw [promiseAll_eq_ok] at h
  subst h
  intro x hx
  exact List.mem_map_of_mem _ hx

/-- C3 counterexample: the client performs no bounds validation on the
correct-option index.  A service payload whose only element carries
`correctIndex = 7` against 4 options is returned unchanged (except for
the subject tag) by `generateNMTQuestions`, with its index out of
[0, options.length). -/
theorem generateNMTQuestions_out_of_range_passthrough :
    generateNMTQuestions Subject.MATH
      (.arr [{ id := some 1, text := some "t",
               options := some ["А", "Б", "В", "Г"], correctIndex := some 7,
               explanation := some "e", subject := none }]) =
      .ok [{ id := some 1, text := some "t",
             options := some ["А", "Б", "В", "Г"], correctIndex := some 7,
             explanation := some "e", subject := some Subject.MATH }] ∧
    correctIndexInBounds
      { id := some 1, text := some "t",
        options := some ["А", "Б", "В", "Г"], correctIndex := some 7,
        explanation := some "e", subject := some Subject.MATH } = false := by
  constructor
  · rfl
  · rfl

/-- C3 amended: every question returned by the four generation functions
has its correct-option index within [0, options.length) provided every
service payload involved satisfies that bound — the client passes
`correctIndex` and `options` through unvalidated, altering only `id` and
`subject`. -/
theorem generated_questions_inBounds
    (subject : String) (resp : GenPayload)
    (svc : String → GenPayload) (batches : Nat → GenPayload)
    (hresp : payloadInBounds resp = true)
    (hsvc : ∀ s, payloadInBounds (svc s) = true)
    (hbatches : ∀ i, payloadInBounds (batches i) = true) :
    (∀ qs, generateNMTQuestions subject resp = .ok qs →
      ∀ q ∈ qs, correctIndexInBounds q = true) ∧
    (∀ qs, generateNMTSimulation svc = .ok qs →
      ∀ q ∈ qs, correctIndexInBounds q = true) ∧
    (∀ qs, generateSubjectSimulation subject batches = .ok qs →
      ∀ q ∈ qs, correctIndexInBounds q = true) ∧
    (∀ qs, generateTopicQuiz subject resp = .ok qs →
      ∀ q ∈ qs, correctIndexInBounds q = true) := by
  refine ⟨?c1, ?c2, ?c3, ?c4⟩
  case c1 =>
    intro qs h q hq
    exact fetch_ok_inBounds hresp h q hq
  case c2 =>
    intro qs h q hq
    rw [generateNMTSimulation] at h
    cases hpa : promiseAll (subjectsToFetch.map fun it =>
        fetchQuestionsInternal it.1 (svc it.1)) with
    | error e => rw [hpa] at h; exact absurd h (by simp)
    | ok results =>
      rw [hpa] at h
      have hqs : qs = reindex results.flatten := by
        simpa using h.symm
      subst hqs
      refine mem_reindex_inBounds ?_ hq
      intro q0 hq0
      rcases List.mem_flatten.mp hq0 with ⟨l, hl, hq0l⟩
      have hok := promiseAll_ok_results hpa l hl
      rcases List.mem_map.mp hok with ⟨p, _, hfetch⟩
      exact fetch_ok_inBounds (hsvc p.1) hfetch q0 hq0l
  case c3 =>
    intro qs h q hq
    rw [generateSubjectSimulation] at h
    cases hpa : promiseAll ((List.range 4).map fun i =>
        fetchQuestionsInternal subject (batches i)) with
    | error e => rw [hpa] at h; exact absurd h (by simp)
    | ok results =>
      rw [hpa] at h
      have hqs : qs = (results.flatten).mapIdx fun i q =>
          { q with id := some ((i : Int) + 1), subject := some subject } := by
        simpa using h.symm
      subst hqs
      rcases exists_of_mem_mapIdx hq with ⟨i, q0, hq0, rfl⟩
      rw [correctIndexInBounds_set_id_subject]
      rcases List.mem_flatten.mp hq0 with ⟨l, hl, hq0l⟩
      have hok := promiseAll_ok_results hpa l hl
      rcases List.mem_map.mp hok with ⟨j, _, hfetch⟩
      exact fetch_ok_inBounds (hbatches j) hfetch q0 hq0l
  case c4 =>
    intro qs h q hq
    rw [generateTopicQuiz] at h
    cases hf : fetchQuestionsInternal subject resp with
    | error e => rw [hf] at h; exact absurd h (by simp)
    | ok questions =>
      rw [hf] at h
      have hqs : qs = reindex questions := by
        simpa using h.symm
      subst hqs
      refine mem_reindex_inBounds ?_ hq
      intro q0 hq0
      exact fetch_ok_inBounds hresp hf q0 hq0

/-- C3 amended, witness: an in-bounds payload stays in bounds through
`generateNMTQuestions`. -/
theorem generated_questions_inBounds_witness :
    correctIndexInBounds
      { id := some 1, text := some "t",
        options := some ["А", "Б", "В", "Г"], correctIndex := some 2,
        explanation := some "e", subject := some Subject.UKRAINIAN } = true := by
  have h := generated_questions_inBounds Subject.UKRAINIAN
    (.arr [{ id := some 1, text := some "t",
             options := some ["А", "Б", "В", "Г"], correctIndex := some 2,
             explanation := some "e", subject := none }])
    (fun _ => .arr []) (fun _ => .arr [])
    (by decide) (fun _ => rfl) (fun _ => rfl)
  exact h.1 _ rfl _ (by decide)

/-- C4: for a completed session with at least one question, the score is
exactly `Math.round(correct / questionCount * 200)` where `correct`
counts the questions whose recorded selection equals the correct index,
and (given every question's correct index is a non-negative number, as
the data model requires) an unanswered question — sentinel `-1` — is
never counted correct. -/
theorem resultsView_score_formula (s : QuizSession)
    (hne : s.questions.length ≠ 0)
    (hci : ∀ q ∈ s.questions, correctIndexNonneg q = true) :
    score s =
      some (jsRound ((correctCount s : ℚ) / (s.questions.length : ℚ) * 200)) ∧
    ∀ idx q, s.questions.get? idx = some q → answerAt s idx = some (-1) →
      isAnswerCorrect s idx q = false := by
  refine ⟨score_some_of_ne_zero s hne, ?_⟩
  intro idx q hq hans
  have hmem := List.get?_mem hq
  have hnn := hci q hmem
  cases hc : q.correctIndex with
  | none => rw [correctIndexNonneg, hc] at hnn; simp at hnn
  | some ci =>
    rw [correctIndexNonneg, hc] at hnn
    have hci0 : (0 : Int) ≤ ci := by simpa using hnn
    rw [isAnswerCorrect, hans, hc, beq_eq_false_iff_ne]
    simp only [ne_eq, Option.some.injEq]
    omega

/-- C4 witness: 16 correct out of 32 questions scores exactly 100 on the
200-point scale. -/
theorem resultsView_score_formula_witness :
    score { subject := "НМТ Симуляція (Мультитест)",
            questions := List.replicate 32
              { id := some 1, text := some "t",
                options := some ["А", "Б", "В", "Г"], correctIndex := some 2,
                explanation := some "e", subject := none },
            userAnswers := List.replicate 16 (2 : Int) ++ List.replicate 16 (0 : Int),
            startTime := 0, endTime := some 1947, timeLimit := 3600 } =
      some (jsRound ((correctCount
          { subject := "НМТ Симуляція (Мультитест)",
            questions := List.replicate 32
              { id := some 1, text := some "t",
                options := some ["А", "Б", "В", "Г"], correctIndex := some 2,
                explanation := some "e", subject := none },
            userAnswers := List.replicate 16 (2 : Int) ++ List.replicate 16 (0 : Int),
            startTime := 0, endTime := some 1947, timeLimit := 3600 } : ℚ) /
        ((32 : Nat) : ℚ) * 200)) ∧
    correctCount
      { subject := "НМТ Симуляція (Мультитест)",
        questions := List.replicate 32
          { id := some 1, text := some "t",
            options := some ["А", "Б", "В", "Г"], correctIndex := some 2,
            explanation := some "e", subject := none },
        userAnswers := List.replicate 16 (2 : Int) ++ List.replicate 16 (0 : Int),
        startTime := 0, endTime := some 1947, timeLimit := 3600 } = 16 ∧
    score { subject := "НМТ Симуляція (Мультитест)",
            questions := List.replicate 32
              { id := some 1, text := some "t",
                options := some ["А", "Б", "В", "Г"], correctIndex := some 2,
                explanation := some "e", subject := none },
            userAnswers := List.replicate 16 (2 : Int) ++ List.replicate 16 (0 : Int),
            startTime := 0, endTime := some 1947, timeLimit := 3600 } = some 100 := by
  refine ⟨(resultsView_score_formula _ (by decide) (by decide)).1, by decide, ?_⟩
  rw [score_eq_intDiv _ (by decide)]
  decide

/-- C5: the countdown started at the session time limit `T ≥ 1` performs
at most one completion; once `T` ticks have elapsed it has performed
exactly one, and any further ticks leave the timer state unchanged (the
interval was cleared, so a later expiry tick cannot re-trigger
completion). -/
theorem quizTimer_completes_once (T : Int) (hT : 1 ≤ T) (n m : Nat) :
    (ticks n (initTimer T)).completions ≤ 1 ∧
    (T ≤ (n : Int) →
      (ticks n (initTimer T)).completions = 1 ∧
      ticks (n + m) (initTimer T) = ticks n (initTimer T)) := by
  have hc := ticks_initTimer_eq T hT n
  constructor
  · rw [hc]
    split
    · exact Nat.zero_le 1
    · exact le_refl 1
  · intro hTn
    have hnot : ¬ ((n : Int) < T) := by omega
    constructor
    · rw [hc, if_neg hnot]
    · have hiter : ticks (n + m) (initTimer T) = tick^[m] (ticks n (initTimer T)) := by
        rw [ticks, ticks, Nat.add_comm n m, Function.iterate_add_apply]
      rw [hiter, hc, if_neg hnot]
      have hfix : tick { timeLeft := 0, intervalActive := false, completions := 1 } =
          { timeLeft := 0, intervalActive := false, completions := 1 } :=
        tick_inactive rfl
      exact Function.iterate_fixed hfix m

/-- C5 witness: a 60-second timer completes exactly once by tick 60, and
two further expiry ticks change nothing. -/
theorem quizTimer_completes_once_witness :
    (ticks 60 (initTimer 60)).completions = 1 ∧
    ticks 62 (initTimer 60) = ticks 60 (initTimer 60) := by
  have h := quizTimer_completes_once 60 (by decide) 60 2
  exact ⟨(h.2 (by decide)).1, (h.2 (by decide)).2⟩

/-- C6 counterexample: the claim's validation clause fails on the code.
A well-formed JSON array whose single element has none of the required
fields (`id`, `text`, `options`, `correctIndex`, `explanation`) is
accepted — `JSON.parse(...) as Question[]` is a compile-time cast, so the
element is returned with only the subject tag added; and a well-formed
non-array payload also throws, so the function does not fail exactly on
no-payload/malformed-JSON. -/
theorem fetchQuestions_no_field_validation :
    fetchQuestionsInternal Subject.MATH
      (.arr [{ id := none, text := none, options := none,
               correctIndex := none, explanation := none, subject := none }]) =
      .ok [{ id := none, text := none, options := none,
             correctIndex := none, explanation := none,
             subject := some Subject.MATH }] ∧
    exceptIsOk (fetchQuestionsInternal Subject.MATH .nonArray) = false := by
  constructor
  · rfl
  · rfl

/-- C6 amended: `fetchQuestionsInternal` succeeds exactly on a payload
that parses as a JSON array, passing its elements through with no
client-side field validation and tagging each with the requested subject
(the required-fields schema is only declared to the service in the
request); it throws exactly when the service call fails, returns no
payload, malformed JSON, or a non-array payload. -/
theorem fetchQuestions_parse_tag_error_classes (subject : String) (resp : GenPayload) :
    (∀ items, resp = .arr items →
      fetchQuestionsInternal subject resp = .ok (tagSubject subject items)) ∧
    (∀ qs, fetchQuestionsInternal subject resp = .ok qs →
      ∀ q ∈ qs, q.subject = some subject) ∧
    (exceptIsOk (fetchQuestionsInternal subject resp) = false ↔
      (resp = .svcFail ∨ resp = .noText ∨ resp = .malformed ∨ resp = .nonArray)) := by
  refine ⟨?h1, ?h2, ?h3⟩
  case h1 =>
    rintro items rfl
    rfl
  case h2 =>
    intro qs h q hq
    cases resp with
    | svcFail => exact absurd h (by simp [fetchQuestionsInternal])
    | noText => exact absurd h (by simp [fetchQuestionsInternal])
    | malformed => exact absurd h (by simp [fetchQuestionsInternal])
    | nonArray => exact absurd h (by simp [fetchQuestionsInternal])
    | arr items =>
      have hqs : qs = tagSubject subject items := by
        simpa [fetchQuestionsInternal] using h.symm
      subst hqs
      rcases List.mem_map.mp hq with ⟨q0, _, rfl⟩
      rfl
  case h3 =>
    cases resp <;> simp [fetchQuestionsInternal, exceptIsOk]

/-- C6 amended, witness: at a concrete array payload the function
succeeds with the tagged pass-through; at a concrete `noText` payload it
fails. -/
theorem fetchQuestions_parse_tag_error_classes_witness :
    fetchQuestionsInternal Subject.ENGLISH
      (.arr [{ id := some 3, text := some "q", options := some ["A", "B", "C", "D"],
               correctIndex := some 0, explanation := some "x", subject := none }]) =
      .ok (tagSubject Subject.ENGLISH
        [{ id := some 3, text := some "q", options := some ["A", "B", "C", "D"],
           correctIndex := some 0, explanation := some "x", subject := none }]) ∧
    (exceptIsOk (fetchQuestionsInternal Subject.ENGLISH .noText) = false ↔
      (GenPayload.noText = .svcFail ∨ GenPayload.noText = .noText ∨
        GenPayload.noText = .malformed ∨ GenPayload.noText = .nonArray)) := by
  exact ⟨(fetchQuestions_parse_tag_error_classes Subject.ENGLISH _).1 _ rfl,
    (fetchQuestions_parse_tag_error_classes Subject.ENGLISH .noText).2.2⟩

/-- C7 counterexample: not every failure of `generateStudyNotes` yields
the fallback text — when the service call itself rejects, the function
rethrows (its `catch` logs and rethrows), producing a thrown condition
rather than a returned fallback. -/
theorem generateStudyNotes_rethrows_service_error :
    generateStudyNotes .svcFail = .error .serviceError ∧
    exceptIsOk (generateStudyNotes .svcFail) = false := by
  constructor
  · rfl
  · rfl

/-- C7 amended: `generateStudyNotes` returns its stable fallback text
when the service resolves with an empty or missing payload but rethrows
a service-call failure; `StudyView.handleTopicSelect` catches that
rethrown error and substitutes its own fallback text, so the study view
always ends with some notes text and never observes an unhandled
exception. -/
theorem studyNotes_fallback_via_view (resp : NotesPayload) :
    (resp = .text none ∨ resp = .text (some "") →
      generateStudyNotes resp = .ok notesFallback) ∧
    (resp = .svcFail →
      generateStudyNotes resp = .error .serviceError ∧
      handleTopicSelect resp = studyViewErrorNotes) ∧
    (∀ t, generateStudyNotes resp = .ok t → handleTopicSelect resp = t) := by
  refine ⟨?h1, ?h2, ?h3⟩
  case h1 =>
    rintro (rfl | rfl)
    · rfl
    · rfl
  case h2 =>
    rintro rfl
    exact ⟨rfl, rfl⟩
  case h3 =>
    intro t h
    rw [handleTopicSelect, h]

/-- C7 amended, witness: at the service-failure payload the function
throws and the view substitutes its fallback; at the empty payload the
function returns its own fallback. -/
theorem studyNotes_fallback_via_view_witness :
    generateStudyNotes .svcFail = .error .serviceError ∧
    handleTopicSelect .svcFail = studyViewErrorNotes ∧
    generateStudyNotes (.text none) = .ok notesFallback ∧
    handleTopicSelect (.text (some "abc")) = "abc" := by
  refine ⟨((studyNotes_fallback_via_view .svcFail).2.1 rfl).1,
    ((studyNotes_fallback_via_view .svcFail).2.1 rfl).2,
    (studyNotes_fallback_via_view (.text none)).1 (Or.inl rfl),
    (studyNotes_fallback_via_view (.text (some "abc"))).2.2 "abc" rfl⟩

theorem get?_set_self_of_lt {l : List Int} {i : Nat} (v : Int) (h : i < l.length) :
    (l.set i v).get? i = some v := by
  simp [List.get?_eq_getElem?, List.getElem?_set_self, h]

/-- C9: next/previous navigation only moves `currentQuestionIndex`; for
every sequence of next/previous steps the `answers` array is preserved
unchanged. -/
theorem quizNavigation_preserves_answers (questionCount : Nat)
    (steps : List NavStep) (st : RunnerState) :
    (applyNavs questionCount steps st).answers = st.answers := by
  induction steps generalizing st with
  | nil => rfl
  | cons step rest ih =>
    have hstep : (applyNav questionCount st step).answers = st.answers := by
      cases step with
      | next =>
        rw [applyNav, handleNext]
        split
        · rfl
        · rfl
      | prev =>
        rw [applyNav, handlePrev]
        split
        · rfl
        · rfl
    calc (applyNavs questionCount (step :: rest) st).answers
        = (applyNavs questionCount rest (applyNav questionCount st step)).answers := rfl
      _ = (applyNav questionCount st step).answers := ih _
      _ = st.answers := hstep

/-- C10: the results scorer has no emptiness guard: the correct count
never exceeds the question count, the incorrect count is the difference
(hence non-negative), and the score is a number exactly when the session
has at least one question — with zero questions it is `0 / 0`
(`correctCount` is forced to `0`), i.e. `NaN`.  The spec states no
non-empty precondition. -/
theorem resultsView_no_empty_guard (s : QuizSession) :
    correctCount s ≤ s.questions.length ∧
    incorrectCount s = (s.questions.length : Int) - (correctCount s : Int) ∧
    0 ≤ incorrectCount s ∧
    (score s = none ↔ s.questions.length = 0) ∧
    (s.questions.length = 0 → correctCount s = 0) := by
  have hle : correctCount s ≤ s.questions.length := by
    calc correctCount s ≤ s.questions.enum.length := List.length_filter_le _ _
      _ = s.questions.length := List.enum_length
  have hzero : s.questions.length = 0 → correctCount s = 0 := by
    intro h
    have : s.questions = [] := List.length_eq_zero.mp h
    simp [correctCount, this]
  refine ⟨hle, rfl, by rw [incorrectCount]; omega, ?_, hzero⟩
  by_cases h : s.questions.length = 0
  · simp [score, jsDiv, h]
  · have hq : ((s.questions.length : ℚ)) ≠ 0 := Nat.cast_ne_zero.mpr h
    simp [score, jsDiv, hq, h]

theorem handleSelectOption_locked {st : RunnerState} (opt : Int)
    (h : (st.answers.get? st.currentQuestionIndex == some (-1)) = false) :
    handleSelectOption false st opt = st := by
  simp only [handleSelectOption, h]
  rfl

theorem handleSelectOption_records_sim {st : RunnerState} (opt : Int) :
    handleSelectOption true st opt =
      { st with answers := st.answers.set st.currentQuestionIndex opt } := by
  simp only [handleSelectOption]
  rfl

theorem handleSelectOption_records_fresh {st : RunnerState} (opt : Int)
    (h : (st.answers.get? st.currentQuestionIndex == some (-1)) = true) :
    handleSelectOption false st opt =
      { st with answers := st.answers.set st.currentQuestionIndex opt } := by
  simp only [handleSelectOption, h]
  rfl

theorem beq_some_neg_one_false {x : Option Int} {a : Int}
    (hx : x = some a) (ha : a ≠ -1) : (x == some (-1)) = false := by
  rw [hx, beq_eq_false_iff_ne]
  simp only [ne_eq, Option.some.injEq]
  omega

/-- C8: in practice mode (non-simulation), once a question's recorded
answer differs from the `-1` sentinel any later selection leaves the
whole runner state — in particular the recorded answer — unchanged, and
the feedback block (correct answer and explanation) renders; a first
selection records the option and reveals feedback immediately.  In
simulation mode the recorded answer for the current question is always
replaced by the latest selection. -/
theorem quizRunner_select_lock_and_replace (st : RunnerState) (opt opt2 a : Int)
    (ha : st.answers.get? st.currentQuestionIndex = some a) :
    (a ≠ -1 →
      handleSelectOption false st opt = st ∧ showsFeedback false st = true) ∧
    (a = -1 → opt ≠ -1 →
      (handleSelectOption false st opt).answers.get? st.currentQuestionIndex =
        some opt ∧
      showsFeedback false (handleSelectOption false st opt) = true) ∧
    (handleSelectOption true st opt).answers.get? st.currentQuestionIndex =
      some opt ∧
    (handleSelectOption true (handleSelectOption true st opt) opt2).answers.get?
      st.currentQuestionIndex = some opt2 := by
  have hlt : st.currentQuestionIndex < st.answers.length :=
    (List.get?_eq_some.mp ha).fst
  refine ⟨?hlock, ?hfirst, ?hsim1, ?hsim2⟩
  case hlock =>
    intro hne
    have hbeq := beq_some_neg_one_false ha hne
    refine ⟨handleSelectOption_locked opt hbeq, ?_⟩
    rw [showsFeedback, runnerIsAnswered, hbeq]
    rfl
  case hfirst =>
    intro haz hopt
    subst haz
    have hbeq : (st.answers.get? st.currentQuestionIndex == some (-1)) = true := by
      rw [ha]
      rfl
    rw [handleSelectOption_records_fresh opt hbeq]
    have hget : (st.answers.set st.currentQuestionIndex opt).get?
        st.currentQuestionIndex = some opt := get?_set_self_of_lt opt hlt
    refine ⟨hget, ?_⟩
    rw [showsFeedback, runnerIsAnswered]
    rw [show ({ st with answers := st.answers.set st.currentQuestionIndex opt } :
        RunnerState).answers.get?
        ({ st with answers := st.answers.set st.currentQuestionIndex opt } :
        RunnerState).currentQuestionIndex =
        (st.answers.set st.currentQuestionIndex opt).get? st.currentQuestionIndex
      from rfl]
    rw [beq_some_neg_one_false hget hopt]
    rfl
  case hsim1 =>
    rw [handleSelectOption_records_sim opt]
    exact get?_set_self_of_lt opt hlt
  case hsim2 =>
    rw [handleSelectOption_records_sim opt, handleSelectOption_records_sim opt2]
    have hlt2 : st.currentQuestionIndex <
        (st.answers.set st.currentQuestionIndex opt).length := by
      simpa using hlt
    exact get?_set_self_of_lt opt2 hlt2

/-- C8 witness: on a three-question runner at question 1, a locked
practice answer survives a new selection, and in simulation mode the
latest of two selections is the recorded one. -/
theorem quizRunner_select_lock_and_replace_witness :
    handleSelectOption false ⟨1, [-1, 2, -1]⟩ 0 = (⟨1, [-1, 2, -1]⟩ : RunnerState) ∧
    (handleSelectOption true (handleSelectOption true ⟨1, [-1, 2, -1]⟩ 0) 3).answers.get? 1 =
      some 3 := by
  have h := quizRunner_select_lock_and_replace ⟨1, [-1, 2, -1]⟩ 0 3 2 rfl
  exact ⟨(h.1 (by decide)).1, h.2.2.2⟩

/-- C10 witness: at a concrete zero-question session the score is no
number, and the correct count is zero. -/
theorem resultsView_no_empty_guard_witness :
    score { subject := "Тест", questions := [], userAnswers := [],
            startTime := 0, endTime := none, timeLimit := 900 } = none ∧
    correctCount { subject := "Тест", questions := [], userAnswers := [],
                   startTime := 0, endTime := none, timeLimit := 900 } = 0 := by
  have h := resultsView_no_empty_guard
    { subject := "Тест", questions := [], userAnswers := [],
      startTime := 0, endTime := none, timeLimit := 900 }
  exact ⟨h.2.2.2.1.mpr rfl, h.2.2.2.2 rfl⟩

end NMT
